import Mathlib

/-!
# send-tcp: connection lifecycle of the TCP sender

A shallow embedding of `src/lib/send-tcp/index.js`.

The module keeps four variables (`timer`, `socket`, `closing`, `teardown`) and
talks to the runtime through `createConnection`, `setKeepAlive`, `write`,
`end`, `setTimeout`, `clearTimeout`, `process.on` and `process.off`.  The
runtime side is embedded as explicit tables in the same state record: the
connections created so far, the timeouts still pending, the number of `exit`
listeners, the callbacks that were handed to `write` and `end` and have not
been delivered yet, and a trace of the observable effects.

Callbacks are delivered by events (`Event`), one at a time, as on the single
JavaScript thread.  Time is a natural number of milliseconds; a timeout can be
delivered only once its due time has been reached.

`createConnection` throws for a port outside 0..65535; the exception leaves
`getSocket` before anything is stored and leaves `sender` to its caller.  A
buffer is the list of its bytes; `Buffer.from` of a string is its UTF-8
encoding, and `write` sends the bytes of a buffer as they are.
-/

namespace SendTcp

/-! ## Data -/

abbrev Port := Nat
abbrev Host := String

/-- The source constant `ENCODING = 'ascii'`. -/
def ENCODING : String := "ascii"

/-- The source constant `SOCKET_TIMEOUT = 3000`: maximum idle time to leave a socket open. -/
def SOCKET_TIMEOUT : Nat := 3000

/-- The optional `auth` object of `createSender`; a missing property is `none`. -/
structure Auth where
  password : Option String
  delimiter : Option String
  deriving DecidableEq, Repr

/-- UTF-8 encoding of one character, as a list of bytes. -/
def utf8Char (c : Char) : List Nat :=
  if c.toNat < 128 then [c.toNat]
  else if c.toNat < 2048 then [192 + c.toNat / 64, 128 + c.toNat % 64]
  else if c.toNat < 65536 then
    [224 + c.toNat / 4096, 128 + c.toNat / 64 % 64, 128 + c.toNat % 64]
  else
    [240 + c.toNat / 262144, 128 + c.toNat / 4096 % 64, 128 + c.toNat / 64 % 64,
      128 + c.toNat % 64]

/-- UTF-8 encoding of a string. -/
def utf8Bytes (s : String) : List Nat := s.toList.flatMap utf8Char

/-- The UTF-16 code units of one character, as JavaScript strings hold them. -/
def utf16Units (c : Char) : List Nat :=
  if c.toNat < 65536 then [c.toNat]
  else [55296 + (c.toNat - 65536) / 1024, 56320 + (c.toNat - 65536) % 1024]

/-- The runtime encoding 'ascii' of a string (what `write(string, 'ascii')` sends): one
byte per UTF-16 code unit, its low eight bits. -/
def asciiBytes (s : String) : List Nat := (s.toList.flatMap utf16Units).map (· % 256)

/-- A byte buffer. -/
structure Buffer where
  bytes : List Nat
  deriving DecidableEq, Repr

/-- The runtime call `Buffer.from(s)` on a string: the UTF-8 encoding of `s`.  Strings are
sequences of Unicode characters, so a JavaScript string with a lone surrogate has no
counterpart here. -/
def bufferFrom (s : String) : Buffer := ⟨utf8Bytes s⟩

/-- An error object: handed to a write callback, or thrown. -/
structure Error where
  message : String
  deriving DecidableEq, Repr

deriving instance DecidableEq for Except

/-- A connection made by `createConnection`, with the keep-alive setting it has.  A socket
handle is the position of its connection in the table of connections created so far. -/
structure Conn where
  port : Port
  host : Host
  keepAlive : Bool
  deriving DecidableEq, Repr

/-- The callback closure `(error) => ...` given to `write` inside `sender`: it
captures `errorHandler` and `data`; `sock` is the socket it was given to. -/
structure PendingWrite where
  sock : Nat
  errorHandler : Option Nat
  data : String
  deriving DecidableEq, Repr

/-- Observable effects, in the order they happen. -/
inductive Effect where
  | connect (sock : Nat) (port : Port) (host : Host)
  | write (sock : Nat) (payload : Buffer) (encoding : String)
  | endReq (sock : Nat)
  | handlerCall (handler : Nat) (error : Error) (data : String)
  | timerFired (id : Nat)
  deriving DecidableEq, Repr

/-- Module variables of `index.js` together with the runtime tables. -/
structure World where
  /-- Module variable `timer` (`undefined` is `none`). -/
  timer : Option Nat
  /-- Module variable `socket` (`null` is `none`). -/
  socket : Option Nat
  /-- Module variable `closing`. -/
  closing : Bool
  /-- Module variable `teardown`. -/
  teardown : Bool
  /-- Current time in milliseconds. -/
  now : Nat
  /-- Next fresh timeout identifier. -/
  nextTimer : Nat
  /-- Every connection created so far, oldest first. -/
  conns : List Conn
  /-- Pending timeouts `(id, due)`; each one has `endSocket` as its callback. -/
  timers : List (Nat × Nat)
  /-- How many times `endSocket` is registered as a listener of `exit`. -/
  exitListeners : Nat
  /-- Sockets on which `end(derefSocket)` was called and whose callback is pending. -/
  pendingEnds : List Nat
  /-- Write callbacks not delivered yet, oldest first. -/
  pendingWrites : List PendingWrite
  /-- The effects so far, oldest first. -/
  trace : List Effect
  deriving DecidableEq, Repr

/-- The state when the module has just been loaded. -/
def World.init : World :=
  { timer := none, socket := none, closing := false, teardown := false,
    now := 0, nextTimer := 0, conns := [], timers := [], exitListeners := 0,
    pendingEnds := [], pendingWrites := [], trace := [] }

/-! ## Runtime primitives -/

/-- The ports the runtime accepts: 0..65535. -/
def validPort (port : Port) : Bool := decide (port ≤ 65535)

/-- The runtime call `createConnection(port, host)`: a new socket, keep-alive off.  For a
port outside 0..65535 it throws `ERR_SOCKET_BAD_PORT` and creates nothing. -/
def createConnection (port : Port) (host : Host) (w : World) : Except Error (Nat × World) :=
  if validPort port then
    .ok (w.conns.length,
      { w with conns := w.conns ++ [⟨port, host, false⟩],
               trace := w.trace ++ [.connect w.conns.length port host] })
  else .error ⟨"ERR_SOCKET_BAD_PORT"⟩

/-- The runtime call `sock.setKeepAlive(enable)`; it returns the socket. -/
def setKeepAlive (sock : Nat) (enable : Bool) (w : World) : Nat × World :=
  match w.conns[sock]? with
  | some c => (sock, { w with conns := w.conns.set sock { c with keepAlive := enable } })
  | none => (sock, w)

/-- The runtime call `clearTimeout(t)`: a no-op for `undefined` or a timeout that is gone. -/
def clearTimeout (t : Option Nat) (w : World) : World :=
  match t with
  | none => w
  | some id => { w with timers := w.timers.filter fun p => p.1 != id }

/-- The runtime call `setTimeout(endSocket, delay)`; it returns the timeout id. -/
def setTimeout (delay : Nat) (w : World) : Nat × World :=
  (w.nextTimer,
   { w with nextTimer := w.nextTimer + 1, timers := w.timers ++ [(w.nextTimer, w.now + delay)] })

/-- The runtime call `process.on('exit', endSocket)`. -/
def processOn (w : World) : World := { w with exitListeners := w.exitListeners + 1 }

/-- The runtime call `process.off('exit', endSocket)`: removes one registration, if any. -/
def processOff (w : World) : World := { w with exitListeners := w.exitListeners - 1 }

/-- The runtime call `sock.end(derefSocket)`: the close is requested, the callback pends. -/
def socketEnd (sock : Nat) (w : World) : World :=
  { w with pendingEnds := w.pendingEnds ++ [sock], trace := w.trace ++ [.endReq sock] }

/-- The runtime call `sock.write(chunk, encoding, callback)` with a buffer as chunk: the
call is recorded with its arguments and the callback pends. -/
def socketWrite (sock : Nat) (chunk : Buffer) (encoding : String) (cb : PendingWrite)
    (w : World) : World :=
  { w with pendingWrites := w.pendingWrites ++ [cb],
           trace := w.trace ++ [.write sock chunk encoding] }

/-! ## The module's functions -/

/-- The first statement of `getSocket`:
`socket = socket || createConnection(port, host).setKeepAlive(true)`.  When
`createConnection` throws, the assignment does not happen. -/
def socketOrCreate (port : Port) (host : Host) (w : World) : Except Error (Nat × World) :=
  match w.socket with
  | some s => .ok (s, { w with socket := some s })
  | none =>
    match createConnection port host w with
    | .error e => .error e
    | .ok (c, wc) =>
      let (sock, wk) := setKeepAlive c true wc
      .ok (sock, { wk with socket := some sock })

/-- Source `getSocket(port, host)`.  An exception of `createConnection` leaves the function
at its first statement, with the state as it was. -/
def getSocket (port : Port) (host : Host) (w : World) : Except Error (Nat × World) :=
  -- socket = socket || createConnection(port, host).setKeepAlive(true);
  match socketOrCreate port host w with
  | .error e => .error e
  | .ok (sock, w2) =>
    -- clearTimeout(timer);
    let w3 := clearTimeout w2.timer w2
    -- timer = setTimeout(endSocket, SOCKET_TIMEOUT);
    let (t, w4) := setTimeout SOCKET_TIMEOUT w3
    let w5 := { w4 with timer := some t }
    -- return socket;
    .ok (sock, w5)

/-- Source `endSocket()`. -/
def endSocket (w : World) : World :=
  -- if (closing) { return; }
  if w.closing then w
  else
    -- closing = true;
    let w1 := { w with closing := true }
    -- socket && socket.end(derefSocket);
    let w2 := match w1.socket with
      | some s => socketEnd s w1
      | none => w1
    -- process.off('exit', endSocket);
    processOff w2

/-- Source `derefSocket()`. -/
def derefSocket (w : World) : World :=
  { w with closing := false, socket := none }

/-- JavaScript truthiness of a value that is a string or missing. -/
def truthy : Option String → Bool
  | some s => s != ""
  | none => false

/-- The value of the local variable `buffer` in `sender`. -/
def senderBuffer (auth : Option Auth) (data : String) : Buffer :=
  match auth with
  | some a =>
    if truthy a.password then
      -- const newData = auth.password + (auth.delimiter ?? "::") + data;
      let newData := a.password.getD "" ++ a.delimiter.getD "::" ++ data
      bufferFrom newData
    else bufferFrom data
  | none => bufferFrom data

/-- Invoking the caller's `errorHandler(error, data)`; the handler is external code. -/
def callHandler (h : Nat) (error : Error) (data : String) (w : World) : World :=
  { w with trace := w.trace ++ [.handlerCall h error data] }

/-- The write callback `(error) => { if (error) { endSocket(); errorHandler && ... } }`. -/
def writeCallback (cb : PendingWrite) (error : Option Error) (w : World) : World :=
  match error with
  | none => w
  | some e =>
    let w1 := endSocket w
    match cb.errorHandler with
    | some h => callHandler h e cb.data w1
    | none => w1

/-- Source `sender(data)` of `createSender(port, host, errorHandler, auth)`: whether the
call returned or threw, and the state it left.  An exception of `getSocket` goes to the
caller after the exit hook was registered.  The boolean that `write` returns is the
runtime's answer and is not part of the state. -/
def sender (port : Port) (host : Host) (errorHandler : Option Nat) (auth : Option Auth)
    (data : String) (w : World) : Except Error Unit × World :=
  -- if (!teardown) { process.on('exit', endSocket); teardown = true; }
  let w1 := if !w.teardown then { processOn w with teardown := true } else w
  let _buffer := senderBuffer auth data
  -- return getSocket(port, host).write(Buffer.from(data), ENCODING, callback)
  match getSocket port host w1 with
  | .error e => (.error e, w1)
  | .ok (sock, w2) =>
    (.ok (), socketWrite sock (bufferFrom data) ENCODING ⟨sock, errorHandler, data⟩ w2)

/-- Source `sender.destroy`, which is `endSocket`. -/
def destroy (w : World) : World := endSocket w

/-! ## Events -/

/-- What can happen next on the JavaScript thread. -/
inductive Event where
  | send (port : Port) (host : Host) (errorHandler : Option Nat) (auth : Option Auth)
      (data : String)
  | destroy
  | writeComplete (i : Nat) (error : Option Error)
  | closeComplete (i : Nat)
  | timerExpiry (i : Nat)
  | processExit
  | elapse (dt : Nat)
  deriving DecidableEq, Repr

/-- One event.  An event that is not enabled (no such pending callback, or a timeout
that is not due) leaves the state unchanged. -/
def step (w : World) : Event → World
  | .send port host eh auth data => (sender port host eh auth data w).2
  | .destroy => destroy w
  | .writeComplete i error =>
    match w.pendingWrites[i]? with
    | some cb => writeCallback cb error { w with pendingWrites := w.pendingWrites.eraseIdx i }
    | none => w
  | .closeComplete i =>
    match w.pendingEnds[i]? with
    | some _ => derefSocket { w with pendingEnds := w.pendingEnds.eraseIdx i }
    | none => w
  | .timerExpiry i =>
    match w.timers[i]? with
    | some (id, due) =>
      if due ≤ w.now then
        endSocket { w with timers := w.timers.eraseIdx i, trace := w.trace ++ [.timerFired id] }
      else w
    | none => w
  | .processExit => Nat.iterate endSocket w.exitListeners w
  | .elapse dt => { w with now := w.now + dt }

/-- A sequence of events, from the left. -/
def run (w : World) (es : List Event) : World := es.foldl step w

/-- The `write` calls in a trace: socket, chunk, encoding argument. -/
def writesOf : List Effect → List (Nat × Buffer × String)
  | [] => []
  | .write s p e :: t => (s, p, e) :: writesOf t
  | _ :: t => writesOf t

/-- The bytes a recorded `write` call puts on the wire: the chunk is a buffer, so its bytes
go out as they are; the encoding argument applies to string chunks only. -/
def wireBytes (call : Nat × Buffer × String) : List Nat := call.2.1.bytes

/-- The close requests in a trace. -/
def endsOf : List Effect → List Nat
  | [] => []
  | .endReq s :: t => s :: endsOf t
  | _ :: t => endsOf t

/-- The error-handler invocations in a trace. -/
def handlerCallsOf : List Effect → List (Nat × Error × String)
  | [] => []
  | .handlerCall h e d :: t => (h, e, d) :: handlerCallsOf t
  | _ :: t => handlerCallsOf t

/-- The timeouts delivered in a trace. -/
def firedOf : List Effect → List Nat
  | [] => []
  | .timerFired i :: t => i :: firedOf t
  | _ :: t => firedOf t

/-! ## Predicates used in the statements -/

/-- The events that start a teardown: `destroy()`, a due idle timeout, a failed write. -/
def isTeardownTrigger (w : World) : Event → Bool
  | .destroy => true
  | .timerExpiry i =>
    match w.timers[i]? with
    | some (_, due) => due ≤ w.now
    | none => false
  | .writeComplete i (some _) => (w.pendingWrites[i]?).isSome
  | _ => false

/-- No timeout pends, or exactly one does and the variable `timer` names it. -/
def timerInv (w : World) : Prop :=
  w.timers = [] ∨ ∃ id due, w.timer = some id ∧ w.timers = [(id, due)]

/-- A schedule in which consecutive sends are less than `SOCKET_TIMEOUT` apart and there
is no `destroy()`, failed write or process exit.  `since` is the time elapsed since the
last send, `none` before the first one. -/
def wellSpaced : Option Nat → List Event → Bool
  | _, [] => true
  | since, .elapse dt :: es => wellSpaced (since.map (· + dt)) es
  | since, .send _ _ _ _ _ :: es =>
    (match since with
      | none => true
      | some g => decide (g < SOCKET_TIMEOUT)) && wellSpaced (some 0) es
  | since, .writeComplete _ none :: es => wellSpaced since es
  | _, .writeComplete _ (some _) :: _ => false
  | since, .closeComplete _ :: es => wellSpaced since es
  | since, .timerExpiry _ :: es => wellSpaced since es
  | _, .destroy :: _ => false
  | _, .processExit :: _ => false

/-- No send has returned yet. -/
def Unused (w : World) : Prop :=
  w.socket = none ∧ w.conns = [] ∧ w.closing = false ∧ w.pendingEnds = [] ∧ w.timers = [] ∧
  firedOf w.trace = [] ∧ endsOf w.trace = [] ∧ writesOf w.trace = []

/-- The first connection is open and in use, `g` milliseconds after the last send. -/
def InUse (g : Nat) (w : World) : Prop :=
  w.socket = some 0 ∧ w.conns.length = 1 ∧ w.closing = false ∧ w.pendingEnds = [] ∧
  firedOf w.trace = [] ∧ endsOf w.trace = [] ∧ (∀ x ∈ writesOf w.trace, x.1 = 0) ∧
  ∃ id due, w.timer = some id ∧ w.timers = [(id, due)] ∧ w.now + SOCKET_TIMEOUT = due + g

/-- The invariant of a well-spaced schedule: no send has returned yet, or the first
connection is in use. -/
def SpacedInv : Option Nat → World → Prop
  | none, w => Unused w
  | some g, w => Unused w ∨ (g < SOCKET_TIMEOUT → InUse g w)

/-- Where the pending write callback at position `i` is after an event; `none` when the
event is its delivery. -/
def trackWrite (i : Nat) : Event → Option Nat
  | .writeComplete j _ => if j = i then none else if j < i then some (i - 1) else some i
  | _ => some i

/-- Where the pending write callback at position `i` is after a sequence of events. -/
def trackWrites (i : Nat) : List Event → Option Nat
  | [] => some i
  | e :: es =>
    match trackWrite i e with
    | some k => trackWrites k es
    | none => none

/-- The guard is set, no close is pending and none was ever requested. -/
def Stuck (w : World) : Prop :=
  w.closing = true ∧ w.pendingEnds = [] ∧ endsOf w.trace = []


/-! ## Auxiliary facts -/

theorem writesOf_append (a b : List Effect) : writesOf (a ++ b) = writesOf a ++ writesOf b := by
  induction a with
  | nil => rfl
  | cons x t ih => cases x <;> simp [writesOf, ih]

theorem endsOf_append (a b : List Effect) : endsOf (a ++ b) = endsOf a ++ endsOf b := by
  induction a with
  | nil => rfl
  | cons x t ih => cases x <;> simp [endsOf, ih]

theorem handlerCallsOf_append (a b : List Effect) :
    handlerCallsOf (a ++ b) = handlerCallsOf a ++ handlerCallsOf b := by
  induction a with
  | nil => rfl
  | cons x t ih => cases x <;> simp [handlerCallsOf, ih]

theorem firedOf_append (a b : List Effect) : firedOf (a ++ b) = firedOf a ++ firedOf b := by
  induction a with
  | nil => rfl
  | cons x t ih => cases x <;> simp [firedOf, ih]

theorem getElem?_append_length {α : Type} (l : List α) (x : α) :
    (l ++ [x])[l.length]? = some x := by
  simp

theorem set_append_length {α : Type} (l : List α) (x y : α) :
    (l ++ [x]).set l.length y = l ++ [y] := by
  induction l with
  | nil => rfl
  | cons a t ih => simp

theorem eraseIdx_append_length {α : Type} (l : List α) (x : α) :
    (l ++ [x]).eraseIdx l.length = l := by
  induction l with
  | nil => rfl
  | cons a t ih => simpa using ih

/-- What `getSocket` does when no socket is stored and the port is accepted. -/
theorem getSocket_none (port : Port) (host : Host) (w : World) (h : w.socket = none)
    (hp : port ≤ 65535) :
    getSocket port host w =
      .ok (w.conns.length,
       { w with socket := some w.conns.length,
                conns := w.conns ++ [⟨port, host, true⟩],
                trace := w.trace ++ [.connect w.conns.length port host],
                timers := (clearTimeout w.timer w).timers ++ [(w.nextTimer, w.now + SOCKET_TIMEOUT)],
                nextTimer := w.nextTimer + 1,
                timer := some w.nextTimer }) := by
  cases ht : w.timer <;>
    simp [getSocket, socketOrCreate, h, ht, hp, validPort, createConnection, setKeepAlive,
      clearTimeout, setTimeout, getElem?_append_length, set_append_length]

/-- With no socket stored and a port outside 0..65535, `getSocket` throws. -/
theorem getSocket_throw (port : Port) (host : Host) (w : World) (h : w.socket = none)
    (hp : 65535 < port) :
    getSocket port host w = .error ⟨"ERR_SOCKET_BAD_PORT"⟩ := by
  have hp2 : ¬ port ≤ 65535 := Nat.not_le.mpr hp
  simp [getSocket, socketOrCreate, h, hp2, validPort, createConnection]

/-- What `getSocket` does when a socket is stored. -/
theorem getSocket_some (port : Port) (host : Host) (w : World) (c : Nat) (h : w.socket = some c) :
    getSocket port host w =
      .ok (c,
       { w with timers := (clearTimeout w.timer w).timers ++ [(w.nextTimer, w.now + SOCKET_TIMEOUT)],
                nextTimer := w.nextTimer + 1,
                timer := some w.nextTimer }) := by
  cases w with | mk timer socket closing teardown now nextTimer conns timers el pe pw tr =>
  simp only at h
  subst h
  cases timer <;> simp [getSocket, socketOrCreate, clearTimeout, setTimeout]

/-- What `sender` does when no socket is stored and the port is accepted. -/
theorem sender_none (port : Port) (host : Host) (eh : Option Nat) (auth : Option Auth)
    (data : String) (w : World) (hs : w.socket = none) (hp : port ≤ 65535) :
    sender port host eh auth data w =
      (.ok (),
       { w with socket := some w.conns.length,
                conns := w.conns ++ [⟨port, host, true⟩],
                trace := w.trace ++ [.connect w.conns.length port host,
                  .write w.conns.length (bufferFrom data) "ascii"],
                timers := (clearTimeout w.timer w).timers ++ [(w.nextTimer, w.now + SOCKET_TIMEOUT)],
                nextTimer := w.nextTimer + 1,
                timer := some w.nextTimer,
                pendingWrites := w.pendingWrites ++ [⟨w.conns.length, eh, data⟩],
                teardown := true,
                exitListeners := if w.teardown then w.exitListeners else w.exitListeners + 1 }) := by
  cases htd : w.teardown <;>
    cases ht : w.timer <;>
      simp [sender, htd, ht, getSocket_none _ _ _ _ hp, socketWrite, hs, processOn, ENCODING,
        clearTimeout]

/-- What `sender` does when a socket is stored. -/
theorem sender_some (port : Port) (host : Host) (eh : Option Nat) (auth : Option Auth)
    (data : String) (w : World) (c : Nat) (hs : w.socket = some c) :
    sender port host eh auth data w =
      (.ok (),
       { w with trace := w.trace ++ [.write c (bufferFrom data) "ascii"],
                timers := (clearTimeout w.timer w).timers ++ [(w.nextTimer, w.now + SOCKET_TIMEOUT)],
                nextTimer := w.nextTimer + 1,
                timer := some w.nextTimer,
                pendingWrites := w.pendingWrites ++ [⟨c, eh, data⟩],
                teardown := true,
                exitListeners := if w.teardown then w.exitListeners else w.exitListeners + 1 }) := by
  cases htd : w.teardown <;>
    cases ht : w.timer <;>
      simp [sender, htd, ht, getSocket_some _ _ _ c, socketWrite, hs, processOn, ENCODING,
        clearTimeout]

/-- With no socket stored and a port outside 0..65535, `sender` throws after the exit hook
was registered; nothing else has changed. -/
theorem sender_throw (port : Port) (host : Host) (eh : Option Nat) (auth : Option Auth)
    (data : String) (w : World) (hs : w.socket = none) (hp : 65535 < port) :
    sender port host eh auth data w =
      (.error ⟨"ERR_SOCKET_BAD_PORT"⟩,
       { w with teardown := true,
                exitListeners := if w.teardown then w.exitListeners else w.exitListeners + 1 }) := by
  cases w with | mk timer socket closing teardown now nextTimer conns timers el pe pw tr =>
  simp only at hs
  subst hs
  cases teardown <;> simp [sender, getSocket_throw _ _ _ _ hp, processOn]

/-- The three ways a call of `sender` can go. -/
theorem sender_cases (port : Port) (w : World) :
    (w.socket = none ∧ port ≤ 65535) ∨ (∃ c, w.socket = some c) ∨
      (w.socket = none ∧ 65535 < port) := by
  cases hs : w.socket with
  | some c => exact Or.inr (Or.inl ⟨c, rfl⟩)
  | none =>
    by_cases hp : port ≤ 65535
    · exact Or.inl ⟨rfl, hp⟩
    · exact Or.inr (Or.inr ⟨rfl, Nat.lt_of_not_le hp⟩)

/-- On ASCII characters the UTF-8 bytes and the 'ascii' bytes are the character codes. -/
theorem bytes_of_ascii (l : List Char) (h : ∀ c ∈ l, c.toNat < 128) :
    l.flatMap utf8Char = l.map Char.toNat ∧
    (l.flatMap utf16Units).map (· % 256) = l.map Char.toNat := by
  induction l with
  | nil => exact ⟨rfl, rfl⟩
  | cons a t ih =>
    have ha : a.toNat < 128 := h a (List.mem_cons_self a t)
    have ht := ih (fun c hc => h c (List.mem_cons_of_mem a hc))
    have h1 : a.toNat < 65536 := by omega
    have h2 : a.toNat % 256 = a.toNat := by omega
    refine ⟨?_, ?_⟩
    · simp [List.flatMap_cons, utf8Char, ha, ht.1]
    · simp [List.flatMap_cons, utf16Units, h1, h2, ht.2]

/-! ## Payload -/

/-- C1 (credential prefixing), evaluated on the code: with password "abc", no delimiter
and data "msg", the local `buffer` is "abc::msg" but the payload handed to `write` is
"msg"; the credentials never reach the wire. -/
theorem C1_credentials_not_written :
    senderBuffer (some ⟨some "abc", none⟩) "msg" = bufferFrom "abc::msg" ∧
    writesOf (sender 9999 "localhost" none (some ⟨some "abc", none⟩) "msg" World.init).2.trace
      = [(0, bufferFrom "msg", "ascii")] ∧
    writesOf (sender 9999 "localhost" none (some ⟨some "abc", none⟩) "msg" World.init).2.trace
      ≠ [(0, bufferFrom "abc::msg", "ascii")] ∧
    (writesOf (sender 9999 "localhost" none (some ⟨some "abc", none⟩) "msg"
      World.init).2.trace).map wireBytes = [[109, 115, 103]] ∧
    (bufferFrom "abc::msg").bytes = [97, 98, 99, 58, 58, 109, 115, 103] := by
  decide

/-- C8 (no credentials), the claim as stated fails in two places.  The chunk handed to
`write` is a buffer, so the encoding argument 'ascii' is not applied: for data "é" the
bytes c3 a9 (UTF-8) go out, where the 'ascii' encoding of "é" is the one byte e9.  And a
sender for port 65536 called with no socket stored throws and hands nothing to `write`. -/
theorem C8_payload_not_ascii_encoded :
    (writesOf (sender 9999 "localhost" none none "é" World.init).2.trace
        = [(0, ⟨[195, 169]⟩, "ascii")] ∧
      (writesOf (sender 9999 "localhost" none none "é" World.init).2.trace).map wireBytes
        = [[195, 169]] ∧
      asciiBytes "é" = [233] ∧
      (writesOf (sender 9999 "localhost" none none "é" World.init).2.trace).map wireBytes
        ≠ [asciiBytes "é"]) ∧
    ((sender 65536 "localhost" none none "msg" World.init).1
        = .error ⟨"ERR_SOCKET_BAD_PORT"⟩ ∧
      writesOf (sender 65536 "localhost" none none "msg" World.init).2.trace = []) := by
  decide

/-- C8 (no credentials), amended: when `auth` is absent, or its password is absent or
empty, the local `buffer` is `Buffer.from(data)`.  When a socket is stored or the port is in
0..65535, `sender(data)` returns and makes exactly one `write` call, on the stored socket,
with the UTF-8 bytes of the data, unchanged, as chunk and 'ascii' as encoding argument; the
bytes on the wire are those UTF-8 bytes, and for data of ASCII characters only they are the
'ascii' encoding of the data, one byte per character.  With no socket stored and a port
outside 0..65535, `sender(data)` throws and makes no `write` call. -/
theorem C8_no_credentials_raw_payload (port : Port) (host : Host) (eh : Option Nat)
    (auth : Option Auth) (data : String) (w : World)
    (hauth : auth = none ∨ ∃ a, auth = some a ∧ (a.password = none ∨ a.password = some "")) :
    senderBuffer auth data = bufferFrom data ∧
    (w.socket ≠ none ∨ port ≤ 65535 →
      (sender port host eh auth data w).1 = .ok () ∧
      ∃ sock, (sender port host eh auth data w).2.socket = some sock ∧
        writesOf (sender port host eh auth data w).2.trace
          = writesOf w.trace ++ [(sock, ⟨utf8Bytes data⟩, "ascii")] ∧
        wireBytes (sock, ⟨utf8Bytes data⟩, "ascii") = data.toList.flatMap utf8Char ∧
        ((∀ c ∈ data.toList, c.toNat < 128) →
          wireBytes (sock, ⟨utf8Bytes data⟩, "ascii") = asciiBytes data ∧
          wireBytes (sock, ⟨utf8Bytes data⟩, "ascii") = data.toList.map Char.toNat)) ∧
    (w.socket = none → 65535 < port →
      (sender port host eh auth data w).1 = .error ⟨"ERR_SOCKET_BAD_PORT"⟩ ∧
      writesOf (sender port host eh auth data w).2.trace = writesOf w.trace) := by
  refine ⟨?_, ?_, ?_⟩
  · rcases hauth with h | ⟨a, h, hp | hp⟩
    · subst h; rfl
    · subst h; simp [senderBuffer, hp, truthy]
    · subst h; simp [senderBuffer, hp, truthy]
  · intro hret
    have hbytes : ∀ sock : Nat,
        wireBytes (sock, ⟨utf8Bytes data⟩, "ascii") = data.toList.flatMap utf8Char ∧
        ((∀ c ∈ data.toList, c.toNat < 128) →
          wireBytes (sock, ⟨utf8Bytes data⟩, "ascii") = asciiBytes data ∧
          wireBytes (sock, ⟨utf8Bytes data⟩, "ascii") = data.toList.map Char.toNat) := by
      intro sock
      refine ⟨rfl, fun hasc => ?_⟩
      have hb := bytes_of_ascii data.toList hasc
      exact ⟨by simp only [wireBytes, utf8Bytes, asciiBytes, hb.1, hb.2],
        by simp only [wireBytes, utf8Bytes, hb.1]⟩
    rcases sender_cases port w with ⟨hs, hp⟩ | ⟨c, hs⟩ | ⟨hs, hp⟩
    · rw [sender_none _ _ _ _ _ w hs hp]
      exact ⟨rfl, w.conns.length, rfl,
        by simp [writesOf_append, writesOf, bufferFrom], hbytes _⟩
    · rw [sender_some _ _ _ _ _ w c hs]
      exact ⟨rfl, c, hs, by simp [writesOf_append, writesOf, bufferFrom], hbytes _⟩
    · rcases hret with h | h
      · exact absurd hs h
      · exact absurd h (Nat.not_le.mpr hp)
  · intro hs hp
    rw [sender_throw _ _ _ _ _ w hs hp]
    exact ⟨rfl, rfl⟩

theorem C8_no_credentials_raw_payload_witness :
    ((sender 9999 "localhost" none none "msg" World.init).1 = .ok () ∧
      ∃ sock, (sender 9999 "localhost" none none "msg" World.init).2.socket = some sock ∧
        writesOf (sender 9999 "localhost" none none "msg" World.init).2.trace
          = writesOf World.init.trace ++ [(sock, ⟨utf8Bytes "msg"⟩, "ascii")] ∧
        wireBytes (sock, ⟨utf8Bytes "msg"⟩, "ascii") = asciiBytes "msg" ∧
        wireBytes (sock, ⟨utf8Bytes "msg"⟩, "ascii") = "msg".toList.map Char.toNat) ∧
    ((sender 65536 "localhost" none (some ⟨some "", none⟩) "msg" World.init).1
        = .error ⟨"ERR_SOCKET_BAD_PORT"⟩ ∧
      writesOf (sender 65536 "localhost" none (some ⟨some "", none⟩) "msg" World.init).2.trace
        = writesOf World.init.trace) :=
  ⟨match (C8_no_credentials_raw_payload 9999 "localhost" none none "msg" World.init
      (Or.inl rfl)).2.1 (Or.inr (by decide)) with
    | ⟨hok, sock, h1, h2, _, h4⟩ => ⟨hok, sock, h1, h2, h4 (by decide)⟩,
   (C8_no_credentials_raw_payload 65536 "localhost" none (some ⟨some "", none⟩) "msg"
      World.init (Or.inr ⟨_, rfl, Or.inr rfl⟩)).2.2 rfl (by decide)⟩

/-! ## Teardown -/

/-- After `endSocket` the guard `closing` is set. -/
theorem endSocket_closing (w : World) : (endSocket w).closing = true := by
  cases hc : w.closing <;> cases hs : w.socket <;> simp [endSocket, hc, hs, processOff, socketEnd]

/-- With the guard set, `endSocket` returns at once. -/
theorem endSocket_of_closing (w : World) (h : w.closing = true) : endSocket w = w := by
  simp [endSocket, h]

/-- What `endSocket` does on an open socket that is not closing. -/
theorem endSocket_open (w : World) (c : Nat) (hs : w.socket = some c) (hc : w.closing = false) :
    endSocket w =
      { w with closing := true, pendingEnds := w.pendingEnds ++ [c],
               trace := w.trace ++ [.endReq c], exitListeners := w.exitListeners - 1 } := by
  simp [endSocket, hs, hc, processOff, socketEnd]

/-- C3 (idempotent teardown): in every state, `destroy()` twice in a row gives the state
that one `destroy()` gives, the second call changing nothing and requesting no close; and
from a state with a socket stored and `closing = false`, the two calls together issue
exactly one close request, for that socket. -/
theorem C3_destroy_twice (w : World) :
    destroy (destroy w) = destroy w ∧
    endsOf (destroy (destroy w)).trace = endsOf (destroy w).trace ∧
    ∀ c, w.socket = some c → w.closing = false →
      endsOf (destroy (destroy w)).trace = endsOf w.trace ++ [c] := by
  have h2 : destroy (destroy w) = destroy w :=
    endSocket_of_closing (endSocket w) (endSocket_closing w)
  refine ⟨h2, by rw [h2], ?_⟩
  intro c hs hc
  rw [h2]
  simp [destroy, endSocket_open w c hs hc, endsOf_append, endsOf]

theorem C3_destroy_twice_witness :
    endsOf (destroy (destroy (sender 9999 "localhost" none none "hello" World.init).2)).trace
      = endsOf (sender 9999 "localhost" none none "hello" World.init).2.trace ++ [0] :=
  (C3_destroy_twice (sender 9999 "localhost" none none "hello" World.init).2).2.2 0
    (by decide) (by decide)

/-! ## Acquisition -/

/-- C10 (get-or-create), the claim as stated fails for a port outside 0..65535: with no
socket stored, `getSocket(65536, "localhost")` throws, creates no connection and stores
none, and so does a send of a sender made for that port. -/
theorem C10_bad_port_creates_nothing :
    World.init.socket = none ∧
    getSocket 65536 "localhost" World.init = .error ⟨"ERR_SOCKET_BAD_PORT"⟩ ∧
    (sender 65536 "localhost" none none "msg" World.init).2.conns = [] ∧
    (sender 65536 "localhost" none none "msg" World.init).2.socket = none := by
  decide

/-- C10 (get-or-create on one shared slot), amended to ports in 0..65535: whenever
`getSocket` returns, it has added a connection to the table exactly when no socket was
stored.  With no socket stored and a port in 0..65535 it adds one connection, to
(port, host) with keep-alive enabled, stores its handle and returns it; with no socket
stored and a port outside 0..65535 it throws.  When a handle is stored, closing or not,
`getSocket` returns that handle, keeps it stored and creates nothing, whatever
(port, host) is.  So when a second sender, made for any other destination, sends after a
first one with a port in 0..65535, its payload is written on the connection opened for the
first destination. -/
theorem C10_get_or_create (port : Port) (host : Host) (w : World) :
    (∀ sock v, getSocket port host w = .ok (sock, v) →
      (v.conns.length = w.conns.length + 1 ↔ w.socket = none)) ∧
    (w.socket = none → port ≤ 65535 →
      ∃ v, getSocket port host w = .ok (w.conns.length, v) ∧
        v.socket = some w.conns.length ∧
        v.conns = w.conns ++ [⟨port, host, true⟩]) ∧
    (w.socket = none → 65535 < port →
      getSocket port host w = .error ⟨"ERR_SOCKET_BAD_PORT"⟩) ∧
    (∀ c, w.socket = some c →
      ∃ v, getSocket port host w = .ok (c, v) ∧
        v.socket = some c ∧ v.conns = w.conns ∧ v.trace = w.trace) ∧
    (∀ (port2 : Port) (host2 : Host) (eh1 eh2 : Option Nat) (auth1 auth2 : Option Auth)
        (d1 d2 : String), port ≤ 65535 →
      (run World.init [.send port host eh1 auth1 d1, .send port2 host2 eh2 auth2 d2]).conns
        = [⟨port, host, true⟩] ∧
      (run World.init [.send port host eh1 auth1 d1, .send port2 host2 eh2 auth2 d2]).trace
        = [.connect 0 port host, .write 0 ⟨utf8Bytes d1⟩ "ascii",
           .write 0 ⟨utf8Bytes d2⟩ "ascii"]) := by
  refine ⟨?_, ?_, ?_, ?_, ?_⟩
  · intro sock v hv
    rcases sender_cases port w with ⟨hs, hp⟩ | ⟨c, hs⟩ | ⟨hs, hp⟩
    · rw [getSocket_none port host w hs hp] at hv
      cases hv
      simp [hs]
    · rw [getSocket_some port host w c hs] at hv
      cases hv
      simp [hs]
    · rw [getSocket_throw port host w hs hp] at hv
      cases hv
  · intro hs hp
    exact ⟨_, getSocket_none port host w hs hp, rfl, rfl⟩
  · intro hs hp
    exact getSocket_throw port host w hs hp
  · intro c hs
    exact ⟨_, getSocket_some port host w c hs, hs, rfl, rfl⟩
  · intro port2 host2 eh1 eh2 auth1 auth2 d1 d2 hp
    have h1 := sender_none port host eh1 auth1 d1 World.init rfl hp
    have h2 := sender_some port2 host2 eh2 auth2 d2
      (sender port host eh1 auth1 d1 World.init).2 0 (by rw [h1]; rfl)
    simp only [run, List.foldl, step]
    rw [h2, h1]
    simp [World.init, bufferFrom]

theorem C10_get_or_create_witness :
    (∃ v, getSocket 9999 "localhost" World.init = .ok (World.init.conns.length, v) ∧
      v.socket = some World.init.conns.length ∧
      v.conns = World.init.conns ++ [⟨9999, "localhost", true⟩]) ∧
    getSocket 65536 "localhost" World.init = .error ⟨"ERR_SOCKET_BAD_PORT"⟩ ∧
    (∃ v, getSocket 65536 "other" (sender 9999 "localhost" none none "hello" World.init).2
        = .ok (0, v) ∧
      v.socket = some 0 ∧
      v.conns = (sender 9999 "localhost" none none "hello" World.init).2.conns ∧
      v.trace = (sender 9999 "localhost" none none "hello" World.init).2.trace) ∧
    (run World.init [.send 9999 "localhost" none none "a", .send 65536 "other" none none "b"]).conns
      = [⟨9999, "localhost", true⟩] :=
  ⟨(C10_get_or_create 9999 "localhost" World.init).2.1 rfl (by decide),
   (C10_get_or_create 65536 "localhost" World.init).2.2.1 rfl (by decide),
   (C10_get_or_create 65536 "other"
    (sender 9999 "localhost" none none "hello" World.init).2).2.2.2.1 0 (by decide),
   ((C10_get_or_create 9999 "localhost" World.init).2.2.2.2 65536 "other" none none none none
    "a" "b" (by decide)).1⟩

/-! ## Write completion -/

/-- `endSocket` leaves the pending write callbacks as they are. -/
theorem endSocket_pendingWrites (w : World) : (endSocket w).pendingWrites = w.pendingWrites := by
  cases hc : w.closing <;> cases hs : w.socket <;> simp [endSocket, hc, hs, processOff, socketEnd]

theorem iterate_endSocket_pendingWrites (n : Nat) (w : World) :
    (Nat.iterate endSocket n w).pendingWrites = w.pendingWrites := by
  induction n generalizing w with
  | zero => rfl
  | succ n ih => rw [Function.iterate_succ_apply, ih, endSocket_pendingWrites]

/-- `endSocket` adds no handler call to the trace. -/
theorem endSocket_handlerCalls (w : World) :
    handlerCallsOf (endSocket w).trace = handlerCallsOf w.trace := by
  cases hc : w.closing <;> cases hs : w.socket <;>
    simp [endSocket, hc, hs, processOff, socketEnd, handlerCallsOf_append, handlerCallsOf]

/-- The pending write callbacks after a call of `sender`: one more when it returned. -/
theorem sender_pendingWrites (port : Port) (host : Host) (eh : Option Nat) (auth : Option Auth)
    (data : String) (w : World) :
    ((sender port host eh auth data w).1 = .ok () ∧
      ∃ sock, (sender port host eh auth data w).2.pendingWrites
        = w.pendingWrites ++ [⟨sock, eh, data⟩]) ∨
    ((sender port host eh auth data w).1 ≠ .ok () ∧
      (sender port host eh auth data w).2.pendingWrites = w.pendingWrites) := by
  rcases sender_cases port w with ⟨hs, hp⟩ | ⟨c, hs⟩ | ⟨hs, hp⟩
  · rw [sender_none _ _ _ _ _ w hs hp]; exact Or.inl ⟨rfl, _, rfl⟩
  · rw [sender_some _ _ _ _ _ w c hs]; exact Or.inl ⟨rfl, _, rfl⟩
  · rw [sender_throw _ _ _ _ _ w hs hp]; exact Or.inr ⟨by simp, rfl⟩

/-- A pending write callback stays pending, at the tracked position, through any event
other than its own delivery. -/
theorem track_step (w : World) (i k : Nat) (cb : PendingWrite) (ev : Event)
    (hcb : w.pendingWrites[i]? = some cb) (hk : trackWrite i ev = some k) :
    (step w ev).pendingWrites[k]? = some cb := by
  have hi : i < w.pendingWrites.length := by
    rcases Nat.lt_or_ge i w.pendingWrites.length with h | h
    · exact h
    · rw [List.getElem?_eq_none h] at hcb; cases hcb
  cases ev with
  | send port host eh auth data =>
    simp only [trackWrite, Option.some.injEq] at hk
    subst hk
    simp only [step]
    rcases sender_pendingWrites port host eh auth data w with ⟨_, sock, h⟩ | ⟨_, h⟩
    · rw [h, List.getElem?_append_left hi]; exact hcb
    · rw [h]; exact hcb
  | destroy =>
    simp only [trackWrite, Option.some.injEq] at hk
    subst hk
    simp only [step, destroy, endSocket_pendingWrites]
    exact hcb
  | writeComplete j err =>
    simp only [trackWrite] at hk
    have hcall : ∀ (c : PendingWrite) (v : World),
        (writeCallback c err v).pendingWrites = v.pendingWrites := by
      intro c v
      cases err with
      | none => rfl
      | some e =>
        cases hh : c.errorHandler <;>
          simp [writeCallback, hh, callHandler, endSocket_pendingWrites]
    by_cases hji : j = i
    · simp [hji] at hk
    · by_cases hlt : j < i
      · simp only [hji, hlt, if_false, if_true, Option.some.injEq] at hk
        subst hk
        have hj : j < w.pendingWrites.length := by omega
        simp only [step]
        rw [List.getElem?_eq_getElem hj]
        simp only [hcall]
        rw [List.getElem?_eraseIdx_of_ge _ _ _ (by omega)]
        have : i - 1 + 1 = i := by omega
        rw [this]; exact hcb
      · simp only [hji, hlt, if_false, Option.some.injEq] at hk
        subst hk
        simp only [step]
        cases hg : w.pendingWrites[j]? with
        | none => exact hcb
        | some c =>
          simp only [hcall]
          rw [List.getElem?_eraseIdx_of_lt _ _ _ (by omega)]
          exact hcb
  | closeComplete j =>
    simp only [trackWrite, Option.some.injEq] at hk
    subst hk
    simp only [step]
    cases hg : w.pendingEnds[j]? with
    | none => exact hcb
    | some c => exact hcb
  | timerExpiry j =>
    simp only [trackWrite, Option.some.injEq] at hk
    subst hk
    simp only [step]
    cases hg : w.timers[j]? with
    | none => exact hcb
    | some p =>
      obtain ⟨id, due⟩ := p
      by_cases hd : due ≤ w.now
      · simp only [hd, if_true, endSocket_pendingWrites]; exact hcb
      · simp only [hd, if_false]; exact hcb
  | processExit =>
    simp only [trackWrite, Option.some.injEq] at hk
    subst hk
    simp only [step, iterate_endSocket_pendingWrites]
    exact hcb
  | elapse dt =>
    simp only [trackWrite, Option.some.injEq] at hk
    subst hk
    exact hcb

theorem track_run (es : List Event) (w : World) (i k : Nat) (cb : PendingWrite)
    (hcb : w.pendingWrites[i]? = some cb) (hk : trackWrites i es = some k) :
    (run w es).pendingWrites[k]? = some cb := by
  induction es generalizing w i with
  | nil =>
    simp only [trackWrites, Option.some.injEq] at hk
    subst hk; exact hcb
  | cons e es ih =>
    simp only [trackWrites] at hk
    cases ht : trackWrite i e with
    | none => simp [ht] at hk
    | some j =>
      simp only [ht] at hk
      exact ih (step w e) j (track_step w i j cb e hcb ht) hk

/-- Delivery of the pending write callback at position `i`. -/
theorem deliver_write (w : World) (i : Nat) (cb : PendingWrite) (err : Option Error)
    (hcb : w.pendingWrites[i]? = some cb) :
    step w (.writeComplete i err)
      = writeCallback cb err { w with pendingWrites := w.pendingWrites.eraseIdx i } := by
  simp [step, hcb]

/-- C2 (error callback contract): take a call `sender(data)` that returned, and any
events after it that do not deliver its write callback (other sends, other write
completions, timeouts, closes, `destroy()`); the callback is still pending, with the
handler and the data of that call.  Delivered without an error, it only goes away: no
module variable changes and nothing is added to the trace.  Delivered with an error `e`,
the state is the one `endSocket` gives, followed, when an error handler `h` was supplied,
by exactly one call of `h` with `e` and the data as passed to that `sender` call (never
the credentials, never the data of another send); with no handler nothing follows
`endSocket`.  Either way the callback is no longer pending. -/
theorem C2_error_callback (port : Port) (host : Host) (eh : Option Nat) (auth : Option Auth)
    (data : String) (w : World) (es : List Event) (k : Nat) (e : Error)
    (hret : (sender port host eh auth data w).1 = .ok ())
    (hk : trackWrites w.pendingWrites.length es = some k) :
    (∃ sock, (run (sender port host eh auth data w).2 es).pendingWrites[k]?
      = some ⟨sock, eh, data⟩) ∧
    step (run (sender port host eh auth data w).2 es) (.writeComplete k none)
      = { run (sender port host eh auth data w).2 es with
          pendingWrites := (run (sender port host eh auth data w).2 es).pendingWrites.eraseIdx k } ∧
    (eh = none →
      step (run (sender port host eh auth data w).2 es) (.writeComplete k (some e))
        = endSocket { run (sender port host eh auth data w).2 es with
            pendingWrites :=
              (run (sender port host eh auth data w).2 es).pendingWrites.eraseIdx k }) ∧
    (∀ h, eh = some h →
      step (run (sender port host eh auth data w).2 es) (.writeComplete k (some e))
        = callHandler h e data
            (endSocket { run (sender port host eh auth data w).2 es with
              pendingWrites :=
                (run (sender port host eh auth data w).2 es).pendingWrites.eraseIdx k }) ∧
      handlerCallsOf
          (step (run (sender port host eh auth data w).2 es) (.writeComplete k (some e))).trace
        = handlerCallsOf (run (sender port host eh auth data w).2 es).trace ++ [(h, e, data)] ∧
      (step (run (sender port host eh auth data w).2 es)
          (.writeComplete k (some e))).pendingWrites
        = (run (sender port host eh auth data w).2 es).pendingWrites.eraseIdx k) := by
  rcases sender_pendingWrites port host eh auth data w with ⟨_, sock, hp⟩ | ⟨hne, _⟩
  · have h0 : (sender port host eh auth data w).2.pendingWrites[w.pendingWrites.length]?
        = some ⟨sock, eh, data⟩ := by
      rw [hp]; exact getElem?_append_length _ _
    have hcb := track_run es _ _ k _ h0 hk
    refine ⟨⟨sock, hcb⟩, ?_, ?_, ?_⟩
    · rw [deliver_write _ k _ none hcb]; rfl
    · intro hnone
      rw [deliver_write _ k _ (some e) hcb]
      subst hnone; rfl
    · intro h hsome
      rw [deliver_write _ k _ (some e) hcb]
      subst hsome
      refine ⟨rfl, ?_, ?_⟩
      · simp [writeCallback, callHandler, handlerCallsOf_append, handlerCallsOf,
          endSocket_handlerCalls]
      · simp [writeCallback, callHandler, endSocket_pendingWrites]
  · exact absurd hret hne

theorem C2_error_callback_witness :
    handlerCallsOf
        (step (run (sender 9999 "localhost" (some 7) (some ⟨some "abc", none⟩) "first"
            (sender 9999 "localhost" (some 6) none "zero" World.init).2).2
          [.send 9999 "localhost" (some 8) none "second", .writeComplete 0 none])
          (.writeComplete 0 (some ⟨"ECONNRESET"⟩))).trace
      = handlerCallsOf
          (run (sender 9999 "localhost" (some 7) (some ⟨some "abc", none⟩) "first"
            (sender 9999 "localhost" (some 6) none "zero" World.init).2).2
          [.send 9999 "localhost" (some 8) none "second", .writeComplete 0 none]).trace
        ++ [(7, ⟨"ECONNRESET"⟩, "first")] :=
  ((C2_error_callback 9999 "localhost" (some 7) (some ⟨some "abc", none⟩) "first"
    (sender 9999 "localhost" (some 6) none "zero" World.init).2
    [.send 9999 "localhost" (some 8) none "second", .writeComplete 0 none] 0
    ⟨"ECONNRESET"⟩ (by decide) (by decide)).2.2.2 7 rfl).2.1

/-! ## Teardown and reconnection -/

/-- Each teardown trigger runs `endSocket` on a state with the same module variables,
connections and pending closes. -/
theorem trigger_step (w : World) (ev : Event) (h : isTeardownTrigger w ev = true) :
    ∃ v : World, v.socket = w.socket ∧ v.closing = w.closing ∧ v.conns = w.conns ∧
      v.pendingEnds = w.pendingEnds ∧
      ((step w ev) = endSocket v ∨ ∃ hd e d, step w ev = callHandler hd e d (endSocket v)) := by
  cases ev with
  | destroy => exact ⟨w, rfl, rfl, rfl, rfl, Or.inl rfl⟩
  | timerExpiry i =>
    simp only [isTeardownTrigger] at h
    cases hg : w.timers[i]? with
    | none => simp [hg] at h
    | some p =>
      obtain ⟨id, due⟩ := p
      simp [hg] at h
      refine ⟨{ w with timers := w.timers.eraseIdx i, trace := w.trace ++ [.timerFired id] },
        rfl, rfl, rfl, rfl, Or.inl ?_⟩
      simp [step, hg, h]
  | writeComplete i err =>
    cases err with
    | none => simp [isTeardownTrigger] at h
    | some e =>
      simp only [isTeardownTrigger] at h
      cases hg : w.pendingWrites[i]? with
      | none => simp [hg] at h
      | some cb =>
        refine ⟨{ w with pendingWrites := w.pendingWrites.eraseIdx i }, rfl, rfl, rfl, rfl, ?_⟩
        cases hh : cb.errorHandler with
        | none => left; simp [step, hg, writeCallback, hh]
        | some hd => right; exact ⟨hd, e, cb.data, by simp [step, hg, writeCallback, hh]⟩
  | send _ _ _ _ _ => simp [isTeardownTrigger] at h
  | closeComplete _ => simp [isTeardownTrigger] at h
  | processExit => simp [isTeardownTrigger] at h
  | elapse _ => simp [isTeardownTrigger] at h

/-- C7 (teardown returns to IDLE), the claim as stated fails for a sender whose port is
outside 0..65535: after send, `destroy()` and the close completion, `socket` is null and
`closing` is false, but the next send, made for port 65536, throws, creates no connection
and stores none. -/
theorem C7_next_send_bad_port :
    (run World.init [.send 9999 "localhost" none none "hello", .destroy,
      .closeComplete 0]).socket = none ∧
    (run World.init [.send 9999 "localhost" none none "hello", .destroy,
      .closeComplete 0]).closing = false ∧
    (sender 65536 "localhost" none none "world"
      (run World.init [.send 9999 "localhost" none none "hello", .destroy,
        .closeComplete 0])).1 = .error ⟨"ERR_SOCKET_BAD_PORT"⟩ ∧
    (run World.init [.send 9999 "localhost" none none "hello", .destroy,
      .closeComplete 0, .send 65536 "localhost" none none "world"]).socket = none ∧
    (run World.init [.send 9999 "localhost" none none "hello", .destroy,
      .closeComplete 0, .send 65536 "localhost" none none "world"]).conns
      = [⟨9999, "localhost", true⟩] := by
  decide

/-- C7 (teardown returns to IDLE), amended to ports in 0..65535: from any state with a
socket `c` stored and `closing = false`, each of the three triggers (a due idle timeout,
`destroy()`, a failed write) sets `closing` and requests the close of `c`; when that close
completes (`derefSocket`), `socket` is null and `closing` is false, as in the initial
state; and the next send, when its port is in 0..65535, returns, creates one new
connection, to its own (port, host) with keep-alive on, stores it and writes on it; when
its port is outside 0..65535 it throws and `socket` stays null. -/
theorem C7_teardown_returns_to_idle (w : World) (c : Nat) (ev : Event)
    (hs : w.socket = some c) (hc : w.closing = false) (ht : isTeardownTrigger w ev = true) :
    (step w ev).socket = some c ∧ (step w ev).closing = true ∧
    (step w ev).pendingEnds = w.pendingEnds ++ [c] ∧
    (step (step w ev) (.closeComplete w.pendingEnds.length)).socket = World.init.socket ∧
    (step (step w ev) (.closeComplete w.pendingEnds.length)).closing = World.init.closing ∧
    (step (step w ev) (.closeComplete w.pendingEnds.length)).pendingEnds = w.pendingEnds ∧
    (∀ (port : Port) (host : Host) (eh : Option Nat) (auth : Option Auth) (data : String),
      port ≤ 65535 →
      (sender port host eh auth data
        (step (step w ev) (.closeComplete w.pendingEnds.length))).1 = .ok () ∧
      (step (step (step w ev) (.closeComplete w.pendingEnds.length))
          (.send port host eh auth data)).socket = some w.conns.length ∧
      (step (step (step w ev) (.closeComplete w.pendingEnds.length))
          (.send port host eh auth data)).conns = w.conns ++ [⟨port, host, true⟩] ∧
      (step (step (step w ev) (.closeComplete w.pendingEnds.length))
          (.send port host eh auth data)).trace
        = (step w ev).trace ++
            [.connect w.conns.length port host,
             .write w.conns.length ⟨utf8Bytes data⟩ "ascii"]) ∧
    (∀ (port : Port) (host : Host) (eh : Option Nat) (auth : Option Auth) (data : String),
      65535 < port →
      (sender port host eh auth data
        (step (step w ev) (.closeComplete w.pendingEnds.length))).1
          = .error ⟨"ERR_SOCKET_BAD_PORT"⟩ ∧
      (step (step (step w ev) (.closeComplete w.pendingEnds.length))
          (.send port host eh auth data)).socket = none ∧
      (step (step (step w ev) (.closeComplete w.pendingEnds.length))
          (.send port host eh auth data)).conns = w.conns) := by
  obtain ⟨v, hvs, hvc, hvn, hvp, hstep⟩ := trigger_step w ev ht
  have hv := endSocket_open v c (hvs.trans hs) (hvc.trans hc)
  have hsend : ∀ (u : World) (port : Port) (host : Host) (eh : Option Nat) (auth : Option Auth)
      (data : String), u.socket = none → port ≤ 65535 →
      (sender port host eh auth data u).1 = .ok () ∧
      (sender port host eh auth data u).2.socket = some u.conns.length ∧
      (sender port host eh auth data u).2.conns = u.conns ++ [⟨port, host, true⟩] ∧
      (sender port host eh auth data u).2.trace
        = u.trace ++ [.connect u.conns.length port host,
            .write u.conns.length ⟨utf8Bytes data⟩ "ascii"] := by
    intro u port host eh auth data hu hp
    rw [sender_none _ _ _ _ _ u hu hp]
    exact ⟨rfl, rfl, rfl, rfl⟩
  have hthrow : ∀ (u : World) (port : Port) (host : Host) (eh : Option Nat)
      (auth : Option Auth) (data : String), u.socket = none → 65535 < port →
      (sender port host eh auth data u).1 = .error ⟨"ERR_SOCKET_BAD_PORT"⟩ ∧
      (sender port host eh auth data u).2.socket = none ∧
      (sender port host eh auth data u).2.conns = u.conns := by
    intro u port host eh auth data hu hp
    rw [sender_throw _ _ _ _ _ u hu hp]
    exact ⟨rfl, hu, rfl⟩
  rcases hstep with h1 | ⟨hd, e, d, h1⟩
  · rw [h1, hv]
    simp only [step, hvp, getElem?_append_length, eraseIdx_append_length, derefSocket]
    refine ⟨hvs.trans hs, by trivial, by trivial, by trivial, by trivial, by trivial, ?_, ?_⟩
    · intro port host eh auth data hp
      have := hsend _ port host eh auth data
        (rfl : ({ v with closing := false, socket := none, pendingEnds := w.pendingEnds,
                         trace := v.trace ++ [.endReq c],
                         exitListeners := v.exitListeners - 1 } : World).socket = none) hp
      simpa [hvn] using this
    · intro port host eh auth data hp
      have := hthrow _ port host eh auth data
        (rfl : ({ v with closing := false, socket := none, pendingEnds := w.pendingEnds,
                         trace := v.trace ++ [.endReq c],
                         exitListeners := v.exitListeners - 1 } : World).socket = none) hp
      simpa [hvn] using this
  · rw [h1, hv]
    simp only [step, callHandler, hvp, getElem?_append_length, eraseIdx_append_length, derefSocket]
    refine ⟨hvs.trans hs, by trivial, by trivial, by trivial, by trivial, by trivial, ?_, ?_⟩
    · intro port host eh auth data hp
      have := hsend _ port host eh auth data
        (rfl : ({ v with closing := false, socket := none, pendingEnds := w.pendingEnds,
                         trace := v.trace ++ [.endReq c] ++ [.handlerCall hd e d],
                         exitListeners := v.exitListeners - 1 } : World).socket = none) hp
      simpa [hvn] using this
    · intro port host eh auth data hp
      have := hthrow _ port host eh auth data
        (rfl : ({ v with closing := false, socket := none, pendingEnds := w.pendingEnds,
                         trace := v.trace ++ [.endReq c] ++ [.handlerCall hd e d],
                         exitListeners := v.exitListeners - 1 } : World).socket = none) hp
      simpa [hvn] using this

theorem C7_teardown_returns_to_idle_witness :
    (step (step (step (sender 9999 "localhost" none none "hello" World.init).2 .destroy)
        (.closeComplete (sender 9999 "localhost" none none "hello" World.init).2.pendingEnds.length))
        (.send 9999 "localhost" none none "world")).socket
      = some (sender 9999 "localhost" none none "hello" World.init).2.conns.length ∧
    (step (step (step (sender 9999 "localhost" none none "hello" World.init).2 .destroy)
        (.closeComplete (sender 9999 "localhost" none none "hello" World.init).2.pendingEnds.length))
        (.send 65536 "localhost" none none "world")).socket = none :=
  ⟨((C7_teardown_returns_to_idle (sender 9999 "localhost" none none "hello" World.init).2 0
      .destroy (by decide) (by decide) (by decide)).2.2.2.2.2.2.1
        9999 "localhost" none none "world" (by decide)).2.1,
   ((C7_teardown_returns_to_idle (sender 9999 "localhost" none none "hello" World.init).2 0
      .destroy (by decide) (by decide) (by decide)).2.2.2.2.2.2.2
        65536 "localhost" none none "world" (by decide)).2.1⟩

/-! ## The idle timeout -/

/-- `endSocket` touches neither `timer` nor the pending timeouts. -/
theorem endSocket_timers (w : World) :
    (endSocket w).timers = w.timers ∧ (endSocket w).timer = w.timer := by
  cases hc : w.closing <;> cases hs : w.socket <;> simp [endSocket, hc, hs, processOff, socketEnd]

theorem endSocket_timerInv (w : World) (h : timerInv w) : timerInv (endSocket w) := by
  unfold timerInv
  rw [(endSocket_timers w).1, (endSocket_timers w).2]
  exact h

theorem iterate_endSocket_timerInv (n : Nat) (w : World) (h : timerInv w) :
    timerInv (Nat.iterate endSocket n w) := by
  induction n generalizing w with
  | zero => exact h
  | succ n ih => exact ih _ (endSocket_timerInv w h)

/-- Under `timerInv`, `clearTimeout(timer)` leaves no timeout pending. -/
theorem clearTimeout_timerInv (w : World) (h : timerInv w) :
    (clearTimeout w.timer w).timers = [] := by
  rcases h with h | ⟨id, due, h1, h2⟩
  · cases ht : w.timer <;> simp [clearTimeout, h]
  · simp [clearTimeout, h1, h2]

/-- Under `timerInv`, a call of `getSocket` that returns leaves exactly the timeout it has
just set. -/
theorem getSocket_timers (port : Port) (host : Host) (w : World) (h : timerInv w)
    (hret : w.socket ≠ none ∨ port ≤ 65535) :
    ∃ sock v, getSocket port host w = .ok (sock, v) ∧
      v.timers = [(w.nextTimer, w.now + SOCKET_TIMEOUT)] ∧ v.timer = some w.nextTimer := by
  rcases sender_cases port w with ⟨hs, hp⟩ | ⟨c, hs⟩ | ⟨hs, hp⟩
  · exact ⟨_, _, getSocket_none port host w hs hp, by simp [clearTimeout_timerInv w h], rfl⟩
  · exact ⟨_, _, getSocket_some port host w c hs, by simp [clearTimeout_timerInv w h], rfl⟩
  · rcases hret with h1 | h1
    · exact absurd hs h1
    · exact absurd h1 (Nat.not_le.mpr hp)

theorem step_timerInv (w : World) (ev : Event) (h : timerInv w) : timerInv (step w ev) := by
  cases ev with
  | send port host eh auth data =>
    simp only [step]
    rcases sender_cases port w with ⟨hs, hp⟩ | ⟨c, hs⟩ | ⟨hs, hp⟩
    · rw [sender_none _ _ _ _ _ w hs hp]
      exact Or.inr ⟨w.nextTimer, w.now + SOCKET_TIMEOUT, rfl,
        by simp [clearTimeout_timerInv w h]⟩
    · rw [sender_some _ _ _ _ _ w c hs]
      exact Or.inr ⟨w.nextTimer, w.now + SOCKET_TIMEOUT, rfl,
        by simp [clearTimeout_timerInv w h]⟩
    · rw [sender_throw _ _ _ _ _ w hs hp]
      exact h
  | destroy => exact endSocket_timerInv w h
  | writeComplete i err =>
    simp only [step]
    cases hg : w.pendingWrites[i]? with
    | none => exact h
    | some cb =>
      cases err with
      | none => exact h
      | some e =>
        have h1 : timerInv (endSocket { w with pendingWrites := w.pendingWrites.eraseIdx i }) :=
          endSocket_timerInv _ h
        cases hh : cb.errorHandler with
        | none => simpa [writeCallback, hh] using h1
        | some hd => simpa [writeCallback, hh, callHandler, timerInv] using h1
  | closeComplete i =>
    simp only [step]
    cases hg : w.pendingEnds[i]? with
    | none => exact h
    | some c => exact h
  | timerExpiry i =>
    simp only [step]
    cases hg : w.timers[i]? with
    | none => exact h
    | some p =>
      obtain ⟨id, due⟩ := p
      by_cases hd : due ≤ w.now
      · simp only [hd, if_true]
        apply endSocket_timerInv
        left
        rcases h with h | ⟨id2, due2, _, h2⟩
        · simp [h] at hg
        · cases i with
          | zero => simp [h2]
          | succ n => simp [h2] at hg
      · simp only [hd, if_false]
        exact h
  | processExit => exact iterate_endSocket_timerInv _ w h
  | elapse dt => exact h

theorem run_timerInv (es : List Event) (w : World) (h : timerInv w) : timerInv (run w es) := by
  induction es generalizing w with
  | nil => exact h
  | cons e es ih => exact ih _ (step_timerInv w e h)

theorem run_append (w : World) (es : List Event) (e : Event) :
    run w (es ++ [e]) = step (run w es) e := by
  simp [run, List.foldl_append]

theorem send_unused (port : Port) (host : Host) (eh : Option Nat) (auth : Option Auth)
    (data : String) (w : World) (h : Unused w) (hp : port ≤ 65535) :
    (sender port host eh auth data w).1 = .ok () ∧
    InUse 0 (sender port host eh auth data w).2 ∧
    writesOf (sender port host eh auth data w).2.trace = [(0, ⟨utf8Bytes data⟩, "ascii")] := by
  obtain ⟨h1, h2, h3, h4, h5, h6, h7, h8⟩ := h
  rw [sender_none _ _ _ _ _ w h1 hp]
  have hc : (clearTimeout w.timer w).timers = [] := clearTimeout_timerInv w (Or.inl h5)
  refine ⟨rfl, ⟨?_, ?_, ?_, ?_, ?_, ?_, ?_, ?_⟩, ?_⟩
  · simp [h2]
  · simp [h2]
  · exact h3
  · exact h4
  · simp [firedOf_append, h6, firedOf]
  · simp [endsOf_append, h7, endsOf]
  · simp [writesOf_append, h8, writesOf, h2]
  · exact ⟨w.nextTimer, w.now + SOCKET_TIMEOUT, rfl, by simp [hc], rfl⟩
  · simp [writesOf_append, h8, writesOf, h2, bufferFrom]

theorem send_unused_throw (port : Port) (host : Host) (eh : Option Nat) (auth : Option Auth)
    (data : String) (w : World) (h : Unused w) (hp : 65535 < port) :
    Unused (sender port host eh auth data w).2 := by
  rw [sender_throw _ _ _ _ _ w h.1 hp]
  exact h

theorem send_inUse (port : Port) (host : Host) (eh : Option Nat) (auth : Option Auth)
    (data : String) (w : World) (g : Nat) (h : InUse g w) :
    (sender port host eh auth data w).1 = .ok () ∧
    InUse 0 (sender port host eh auth data w).2 ∧
    writesOf (sender port host eh auth data w).2.trace
      = writesOf w.trace ++ [(0, ⟨utf8Bytes data⟩, "ascii")] := by
  obtain ⟨h1, h2, h3, h4, h5, h6, h7, id, due, h8, h9, _⟩ := h
  rw [sender_some _ _ _ _ _ w 0 h1]
  have hc : (clearTimeout w.timer w).timers = [] :=
    clearTimeout_timerInv w (Or.inr ⟨id, due, h8, h9⟩)
  refine ⟨rfl, ⟨h1, h2, h3, h4, ?_, ?_, ?_, ?_⟩, ?_⟩
  · simp [firedOf_append, h5, firedOf]
  · simp [endsOf_append, h6, endsOf]
  · intro x hx
    simp only [writesOf_append, writesOf, List.mem_append, List.mem_singleton] at hx
    rcases hx with hx | hx
    · exact h7 x hx
    · rw [hx]
  · exact ⟨w.nextTimer, w.now + SOCKET_TIMEOUT, rfl, by simp [hc], rfl⟩
  · simp [writesOf_append, writesOf, bufferFrom]

/-- Events other than a send that returns keep an unused state unused. -/
theorem unused_step (w : World) (e : Event) (h : Unused w)
    (he : (∃ dt, e = .elapse dt) ∨ (∃ i, e = .closeComplete i) ∨ (∃ i, e = .timerExpiry i) ∨
      (∃ i, e = .writeComplete i none)) :
    Unused (step w e) := by
  rcases he with ⟨dt, rfl⟩ | ⟨i, rfl⟩ | ⟨i, rfl⟩ | ⟨i, rfl⟩
  · exact h
  · have : step w (.closeComplete i) = w := by simp [step, h.2.2.2.1]
    rw [this]; exact h
  · have : step w (.timerExpiry i) = w := by simp [step, h.2.2.2.2.1]
    rw [this]; exact h
  · cases hg : w.pendingWrites[i]? with
    | none =>
      have : step w (.writeComplete i none) = w := by simp [step, hg]
      rw [this]; exact h
    | some cb =>
      have : step w (.writeComplete i none)
          = { w with pendingWrites := w.pendingWrites.eraseIdx i } := by
        simp [step, hg, writeCallback]
      rw [this]; exact h

/-- Events other than a send keep the first connection in use while the timeout is not
due. -/
theorem inUse_step (w : World) (e : Event) (g : Nat) (h : InUse g w) (hg : g < SOCKET_TIMEOUT)
    (he : (∃ i, e = .closeComplete i) ∨ (∃ i, e = .timerExpiry i) ∨
      (∃ i, e = .writeComplete i none)) :
    InUse g (step w e) := by
  obtain ⟨h1, h2, h3, h4, h5, h6, h7, id, due, h8, h9, h10⟩ := h
  rcases he with ⟨i, rfl⟩ | ⟨i, rfl⟩ | ⟨i, rfl⟩
  · have : step w (.closeComplete i) = w := by simp [step, h4]
    rw [this]; exact ⟨h1, h2, h3, h4, h5, h6, h7, id, due, h8, h9, h10⟩
  · have : step w (.timerExpiry i) = w := by
      cases i with
      | zero =>
        have hnd : ¬ due ≤ w.now := by omega
        simp [step, h9, hnd]
      | succ n => simp [step, h9]
    rw [this]; exact ⟨h1, h2, h3, h4, h5, h6, h7, id, due, h8, h9, h10⟩
  · cases hgw : w.pendingWrites[i]? with
    | none =>
      have : step w (.writeComplete i none) = w := by simp [step, hgw]
      rw [this]; exact ⟨h1, h2, h3, h4, h5, h6, h7, id, due, h8, h9, h10⟩
    | some cb =>
      have : step w (.writeComplete i none)
          = { w with pendingWrites := w.pendingWrites.eraseIdx i } := by
        simp [step, hgw, writeCallback]
      rw [this]; exact ⟨h1, h2, h3, h4, h5, h6, h7, id, due, h8, h9, h10⟩

/-- One event of a well-spaced schedule keeps the invariant. -/
theorem spaced_step (since : Option Nat) (w : World) (e : Event) (es : List Event)
    (hinv : SpacedInv since w) (hsp : wellSpaced since (e :: es) = true) :
    ∃ since2, SpacedInv since2 (step w e) ∧ wellSpaced since2 es = true := by
  have hcases : Unused w ∨ ∃ g, since = some g ∧ (g < SOCKET_TIMEOUT → InUse g w) := by
    cases since with
    | none => exact Or.inl hinv
    | some g =>
      rcases hinv with h | h
      · exact Or.inl h
      · exact Or.inr ⟨g, rfl, h⟩
  have hquiet : ((∃ i, e = .closeComplete i) ∨ (∃ i, e = .timerExpiry i) ∨
      (∃ i, e = .writeComplete i none)) → wellSpaced since es = true →
      ∃ since2, SpacedInv since2 (step w e) ∧ wellSpaced since2 es = true := by
    intro he hes
    refine ⟨since, ?_, hes⟩
    rcases hcases with hu | ⟨g, rfl, hin⟩
    · have := unused_step w e hu (Or.inr he)
      cases since with
      | none => exact this
      | some g => exact Or.inl this
    · exact Or.inr (fun hg => inUse_step w e g (hin hg) hg he)
  cases e with
  | send port host eh auth data =>
    have hes : wellSpaced (some 0) es = true := by
      cases since <;> simp [wellSpaced] at hsp <;> simp [hsp]
    refine ⟨some 0, ?_, hes⟩
    simp only [step]
    rcases hcases with hu | ⟨g, rfl, hin⟩
    · by_cases hp : port ≤ 65535
      · exact Or.inr (fun _ => (send_unused port host eh auth data w hu hp).2.1)
      · exact Or.inl (send_unused_throw port host eh auth data w hu (Nat.lt_of_not_le hp))
    · simp [wellSpaced] at hsp
      exact Or.inr (fun _ => (send_inUse port host eh auth data w g (hin hsp.1)).2.1)
  | destroy => simp [wellSpaced] at hsp
  | processExit => simp [wellSpaced] at hsp
  | elapse dt =>
    refine ⟨since.map (· + dt), ?_, by simpa [wellSpaced] using hsp⟩
    rcases hcases with hu | ⟨g, rfl, hin⟩
    · have := unused_step w (.elapse dt) hu (Or.inl ⟨dt, rfl⟩)
      cases since with
      | none => exact this
      | some g => exact Or.inl this
    · refine Or.inr (fun hg => ?_)
      have hg1 : g + dt < SOCKET_TIMEOUT := hg
      have hg2 : g < SOCKET_TIMEOUT := by omega
      obtain ⟨h1, h2, h3, h4, h5, h6, h7, id, due, h8, h9, h10⟩ := hin hg2
      refine ⟨h1, h2, h3, h4, h5, h6, h7, id, due, h8, h9, ?_⟩
      simp only [step]
      omega
  | closeComplete i =>
    exact hquiet (Or.inl ⟨i, rfl⟩) (by simpa [wellSpaced] using hsp)
  | timerExpiry i =>
    exact hquiet (Or.inr (Or.inl ⟨i, rfl⟩)) (by simpa [wellSpaced] using hsp)
  | writeComplete i err =>
    cases err with
    | some e => simp [wellSpaced] at hsp
    | none => exact hquiet (Or.inr (Or.inr ⟨i, rfl⟩)) (by simpa [wellSpaced] using hsp)

/-- The invariant after the events of a well-spaced schedule that precede `tail`. -/
theorem spaced_run (es tail : List Event) (since : Option Nat) (w : World)
    (hinv : SpacedInv since w) (hsp : wellSpaced since (es ++ tail) = true) :
    ∃ since2, SpacedInv since2 (run w es) ∧ wellSpaced since2 tail = true := by
  induction es generalizing since w with
  | nil => exact ⟨since, hinv, hsp⟩
  | cons e es ih =>
    obtain ⟨since2, h1, h2⟩ := spaced_step since w e _ hinv hsp
    exact ih since2 (step w e) h1 h2

/-- C4 (debounce), the claim as stated fails for a port outside 0..65535.  After a send,
`destroy()` and the close completion no socket is stored and the timeout of the send still
pends; `getSocket(65536, "localhost")` then throws, and the send of a sender for that port
leaves that timeout pending and sets none.  And in the schedule that consists of one send
to port 65536 the connection is created zero times and nothing is written. -/
theorem C4_bad_port_sets_no_timer :
    ((run World.init [.send 9999 "localhost" none none "a", .destroy,
        .closeComplete 0]).socket = none ∧
      (run World.init [.send 9999 "localhost" none none "a", .destroy,
        .closeComplete 0]).timers = [(0, 3000)] ∧
      getSocket 65536 "localhost"
        (run World.init [.send 9999 "localhost" none none "a", .destroy, .closeComplete 0])
        = .error ⟨"ERR_SOCKET_BAD_PORT"⟩ ∧
      (run World.init [.send 9999 "localhost" none none "a", .destroy, .closeComplete 0,
        .send 65536 "localhost" none none "b"]).timers = [(0, 3000)]) ∧
    (wellSpaced none [.send 65536 "localhost" none none "a"] = true ∧
      (run World.init [.send 65536 "localhost" none none "a"]).conns = [] ∧
      (run World.init [.send 65536 "localhost" none none "a"]).timers = [] ∧
      writesOf (run World.init [.send 65536 "localhost" none none "a"]).trace = []) := by
  decide

/-- C4 (debounce), amended to calls that return: in every state reachable from the
initial one, at most one idle timeout pends; a call of `getSocket` made with a socket
stored or with a port in 0..65535 returns and leaves exactly one timeout pending, the one
it has just set, due `SOCKET_TIMEOUT` = 3000 ms after the call; with no socket stored and a
port outside 0..65535 it throws.  Along every schedule from the initial state whose
consecutive sends are less than 3000 ms apart, without `destroy()`, failed write or
process exit, at each send no timeout has been delivered, no close has been requested, at
most one connection has been created and every write so far went to it; and a send made
with a port in 0..65535 or with a socket stored returns, exactly one connection has been
created, it is the stored one, and the data of this send is written on it. -/
theorem C4_debounce :
    (∀ (es : List Event) (port : Port) (host : Host),
      (run World.init es).timers.length ≤ 1 ∧
      ((run World.init es).socket ≠ none ∨ port ≤ 65535 →
        ∃ sock v, getSocket port host (run World.init es) = .ok (sock, v) ∧
          v.timers = [((run World.init es).nextTimer, (run World.init es).now + 3000)] ∧
          v.timer = some (run World.init es).nextTimer) ∧
      ((run World.init es).socket = none → 65535 < port →
        getSocket port host (run World.init es) = .error ⟨"ERR_SOCKET_BAD_PORT"⟩)) ∧
    (∀ (es : List Event) (port : Port) (host : Host) (eh : Option Nat) (auth : Option Auth)
        (data : String),
      wellSpaced none (es ++ [.send port host eh auth data]) = true →
      firedOf (run World.init (es ++ [.send port host eh auth data])).trace = [] ∧
      endsOf (run World.init (es ++ [.send port host eh auth data])).trace = [] ∧
      (run World.init (es ++ [.send port host eh auth data])).conns.length ≤ 1 ∧
      (∀ x ∈ writesOf (run World.init (es ++ [.send port host eh auth data])).trace, x.1 = 0) ∧
      (port ≤ 65535 ∨ (run World.init es).socket ≠ none →
        (sender port host eh auth data (run World.init es)).1 = .ok () ∧
        (run World.init (es ++ [.send port host eh auth data])).conns.length = 1 ∧
        (run World.init (es ++ [.send port host eh auth data])).socket = some 0 ∧
        ∃ ws, writesOf (run World.init (es ++ [.send port host eh auth data])).trace
          = ws ++ [(0, ⟨utf8Bytes data⟩, "ascii")])) := by
  have hinit : timerInv World.init := Or.inl rfl
  refine ⟨?_, ?_⟩
  · intro es port host
    have h := run_timerInv es World.init hinit
    refine ⟨?_, getSocket_timers port host _ h, getSocket_throw port host _⟩
    rcases h with h | ⟨id, due, _, h⟩ <;> simp [h]
  · intro es port host eh auth data hsp
    have hu : SpacedInv none World.init := by
      simp [SpacedInv, Unused, World.init, firedOf, endsOf, writesOf]
    obtain ⟨since, hinv, htail⟩ := spaced_run es _ none World.init hu hsp
    rw [run_append]
    simp only [step]
    have hgood : ∀ v : World, InUse 0 v →
        firedOf v.trace = [] ∧ endsOf v.trace = [] ∧ v.conns.length ≤ 1 ∧
        (∀ x ∈ writesOf v.trace, x.1 = 0) := by
      intro v hv
      exact ⟨hv.2.2.2.2.1, hv.2.2.2.2.2.1, by rw [hv.2.1], hv.2.2.2.2.2.2.1⟩
    have hcases : Unused (run World.init es) ∨ ∃ g, InUse g (run World.init es) := by
      cases since with
      | none => exact Or.inl hinv
      | some g =>
        rcases hinv with h | h
        · exact Or.inl h
        · simp [wellSpaced] at htail
          exact Or.inr ⟨g, h htail⟩
    rcases hcases with hun | ⟨g, hin⟩
    · by_cases hp : port ≤ 65535
      · obtain ⟨hok, hiu, hw⟩ := send_unused port host eh auth data _ hun hp
        obtain ⟨h1, h2, h3, h4⟩ := hgood _ hiu
        exact ⟨h1, h2, h3, h4, fun _ => ⟨hok, hiu.2.1, hiu.1, [], hw⟩⟩
      · have ht := send_unused_throw port host eh auth data _ hun (Nat.lt_of_not_le hp)
        refine ⟨ht.2.2.2.2.2.1, ht.2.2.2.2.2.2.1, by simp [ht.2.1], ?_, ?_⟩
        · intro x hx
          rw [ht.2.2.2.2.2.2.2] at hx
          cases hx
        · intro hret
          rcases hret with h | h
          · exact absurd h hp
          · exact absurd hun.1 h
    · obtain ⟨hok, hiu, hw⟩ := send_inUse port host eh auth data _ g hin
      obtain ⟨h1, h2, h3, h4⟩ := hgood _ hiu
      exact ⟨h1, h2, h3, h4, fun _ => ⟨hok, hiu.2.1, hiu.1, _, hw⟩⟩

theorem C4_debounce_witness :
    (∃ sock v, getSocket 9999 "localhost" (run World.init [.destroy]) = .ok (sock, v) ∧
      v.timers = [((run World.init [.destroy]).nextTimer, (run World.init [.destroy]).now + 3000)] ∧
      v.timer = some (run World.init [.destroy]).nextTimer) ∧
    getSocket 65536 "localhost" (run World.init [.destroy]) = .error ⟨"ERR_SOCKET_BAD_PORT"⟩ ∧
    firedOf (run World.init ([.send 9999 "localhost" none none "a", .elapse 2999,
        .timerExpiry 0, .send 65536 "other" none none "b", .elapse 2999, .timerExpiry 0]
        ++ [.send 9999 "localhost" none none "c"])).trace = [] ∧
    (run World.init ([.send 9999 "localhost" none none "a", .elapse 2999,
        .timerExpiry 0, .send 65536 "other" none none "b", .elapse 2999, .timerExpiry 0]
        ++ [.send 9999 "localhost" none none "c"])).conns.length = 1 :=
  ⟨(C4_debounce.1 [.destroy] 9999 "localhost").2.1 (Or.inr (by decide)),
   (C4_debounce.1 [.destroy] 65536 "localhost").2.2 (by decide) (by decide),
   (C4_debounce.2 [.send 9999 "localhost" none none "a", .elapse 2999,
        .timerExpiry 0, .send 65536 "other" none none "b", .elapse 2999, .timerExpiry 0]
      9999 "localhost" none none "c" (by decide)).1,
   ((C4_debounce.2 [.send 9999 "localhost" none none "a", .elapse 2999,
        .timerExpiry 0, .send 65536 "other" none none "b", .elapse 2999, .timerExpiry 0]
      9999 "localhost" none none "c" (by decide)).2.2.2.2 (Or.inl (by decide))).2.1⟩

/-! ## Behaviour of the guard `closing` and of the exit hook on the code as written -/

theorem iterate_endSocket_of_closing (n : Nat) (w : World) (h : w.closing = true) :
    Nat.iterate endSocket n w = w := by
  induction n with
  | zero => rfl
  | succ n ih => simp only [Function.iterate_succ, Function.comp, endSocket_of_closing w h, ih]

theorem step_stuck (w : World) (ev : Event) (h : Stuck w) : Stuck (step w ev) := by
  obtain ⟨h1, h2, h3⟩ := h
  cases ev with
  | send port host eh auth data =>
    simp only [step]
    rcases sender_cases port w with ⟨hs, hp⟩ | ⟨c, hs⟩ | ⟨hs, hp⟩
    · rw [sender_none _ _ _ _ _ w hs hp]
      exact ⟨h1, h2, by simp [endsOf_append, endsOf, h3]⟩
    · rw [sender_some _ _ _ _ _ w c hs]
      exact ⟨h1, h2, by simp [endsOf_append, endsOf, h3]⟩
    · rw [sender_throw _ _ _ _ _ w hs hp]
      exact ⟨h1, h2, h3⟩
  | destroy =>
    simp only [step, destroy, endSocket_of_closing w h1]
    exact ⟨h1, h2, h3⟩
  | writeComplete i err =>
    simp only [step]
    cases hg : w.pendingWrites[i]? with
    | none => exact ⟨h1, h2, h3⟩
    | some cb =>
      cases err with
      | none => exact ⟨h1, h2, h3⟩
      | some e =>
        have hv : endSocket { w with pendingWrites := w.pendingWrites.eraseIdx i }
            = { w with pendingWrites := w.pendingWrites.eraseIdx i } :=
          endSocket_of_closing _ h1
        cases hh : cb.errorHandler with
        | none =>
          simp only [writeCallback, hh, hv]
          exact ⟨h1, h2, h3⟩
        | some hd =>
          simp only [writeCallback, hh, hv, callHandler]
          exact ⟨h1, h2, by simp [endsOf_append, endsOf, h3]⟩
  | closeComplete i =>
    simp only [step, h2]
    exact ⟨h1, h2, h3⟩
  | timerExpiry i =>
    simp only [step]
    cases hg : w.timers[i]? with
    | none => exact ⟨h1, h2, h3⟩
    | some p =>
      obtain ⟨id, due⟩ := p
      by_cases hd : due ≤ w.now
      · simp only [hd, if_true]
        rw [endSocket_of_closing
          { w with timers := w.timers.eraseIdx i, trace := w.trace ++ [.timerFired id] } h1]
        exact ⟨h1, h2, by simp [endsOf_append, endsOf, h3]⟩
      · simp only [hd, if_false]
        exact ⟨h1, h2, h3⟩
  | processExit =>
    simp only [step, iterate_endSocket_of_closing _ w h1]
    exact ⟨h1, h2, h3⟩
  | elapse dt => exact ⟨h1, h2, h3⟩

theorem run_stuck (es : List Event) (w : World) (h : Stuck w) : Stuck (run w es) := by
  induction es generalizing w with
  | nil => exact h
  | cons e es ih => exact ih _ (step_stuck w e h)

/-- C9 (closing-guard invariant), evaluated on the code: `destroy()` in the initial state
sets `closing` with no socket stored and no close pending; so does the idle timeout that
is left pending by a send when it is delivered after `destroy()` and the close
completion.  From the first of these states `closing` stays true along every schedule and
no close is ever requested again. -/
theorem C9_closing_without_teardown :
    ((run World.init [.destroy]).closing = true ∧
      (run World.init [.destroy]).socket = none ∧
      (run World.init [.destroy]).pendingEnds = []) ∧
    ((run World.init [.send 9999 "localhost" none none "hello", .destroy, .closeComplete 0,
        .elapse 3000, .timerExpiry 0]).closing = true ∧
      (run World.init [.send 9999 "localhost" none none "hello", .destroy, .closeComplete 0,
        .elapse 3000, .timerExpiry 0]).socket = none ∧
      (run World.init [.send 9999 "localhost" none none "hello", .destroy, .closeComplete 0,
        .elapse 3000, .timerExpiry 0]).pendingEnds = []) ∧
    ∀ es : List Event,
      (run (run World.init [.destroy]) es).closing = true ∧
      (run (run World.init [.destroy]) es).pendingEnds = [] ∧
      endsOf (run (run World.init [.destroy]) es).trace = [] := by
  refine ⟨by decide, by decide, ?_⟩
  intro es
  exact run_stuck es _ ⟨by decide, by decide, by decide⟩

/-- C5 (idle expiry), evaluated on the code: after `destroy()` in the initial state and
`send("hello")`, a connection is stored and no close of it has been requested; when the
idle timeout is delivered 3000 ms later no close is requested, the handle stays stored,
and `send("world")` writes on the same connection without creating one.  The scenario of
the claim, run from the initial state without the `destroy()`, does close and reconnect. -/
theorem C5_idle_expiry_requests_no_close :
    ((run World.init [.destroy, .send 9999 "localhost" none none "hello", .elapse 3000]).socket
        = some 0 ∧
      (run World.init [.destroy, .send 9999 "localhost" none none "hello", .elapse 3000]).timers
        = [(0, 3000)] ∧
      (run World.init [.destroy, .send 9999 "localhost" none none "hello", .elapse 3000]).now
        = 3000 ∧
      endsOf (run World.init [.destroy, .send 9999 "localhost" none none "hello",
        .elapse 3000]).trace = []) ∧
    (firedOf (run World.init [.destroy, .send 9999 "localhost" none none "hello", .elapse 3000,
        .timerExpiry 0]).trace = [0] ∧
      endsOf (run World.init [.destroy, .send 9999 "localhost" none none "hello", .elapse 3000,
        .timerExpiry 0]).trace = [] ∧
      (run World.init [.destroy, .send 9999 "localhost" none none "hello", .elapse 3000,
        .timerExpiry 0]).pendingEnds = [] ∧
      (run World.init [.destroy, .send 9999 "localhost" none none "hello", .elapse 3000,
        .timerExpiry 0]).socket = some 0) ∧
    ((run World.init [.destroy, .send 9999 "localhost" none none "hello", .elapse 3000,
        .timerExpiry 0, .send 9999 "localhost" none none "world"]).conns
        = [⟨9999, "localhost", true⟩] ∧
      writesOf (run World.init [.destroy, .send 9999 "localhost" none none "hello",
        .elapse 3000, .timerExpiry 0, .send 9999 "localhost" none none "world"]).trace
        = [(0, bufferFrom "hello", "ascii"), (0, bufferFrom "world", "ascii")]) ∧
    (endsOf (run World.init [.send 9999 "localhost" none none "hello", .elapse 3000,
        .timerExpiry 0, .closeComplete 0, .send 9999 "localhost" none none "world"]).trace
        = [0] ∧
      (run World.init [.send 9999 "localhost" none none "hello", .elapse 3000,
        .timerExpiry 0, .closeComplete 0, .send 9999 "localhost" none none "world"]).conns
        = [⟨9999, "localhost", true⟩, ⟨9999, "localhost", true⟩] ∧
      writesOf (run World.init [.send 9999 "localhost" none none "hello", .elapse 3000,
        .timerExpiry 0, .closeComplete 0, .send 9999 "localhost" none none "world"]).trace
        = [(0, bufferFrom "hello", "ascii"), (1, bufferFrom "world", "ascii")]) := by
  decide

/-- C6 (shutdown safety), evaluated on the code: after a first connection was closed by
the idle timeout, the next send opens a second one; no teardown is in progress,
`teardown` is still true, yet `endSocket` is no longer registered for `exit`, and a
process exit in that state requests no close and changes nothing. -/
theorem C6_exit_hook_not_registered :
    (run World.init [.send 9999 "localhost" none none "hello", .elapse 3000, .timerExpiry 0,
        .closeComplete 0, .send 9999 "localhost" none none "world"]).socket = some 1 ∧
    (run World.init [.send 9999 "localhost" none none "hello", .elapse 3000, .timerExpiry 0,
        .closeComplete 0, .send 9999 "localhost" none none "world"]).closing = false ∧
    (run World.init [.send 9999 "localhost" none none "hello", .elapse 3000, .timerExpiry 0,
        .closeComplete 0, .send 9999 "localhost" none none "world"]).pendingEnds = [] ∧
    (run World.init [.send 9999 "localhost" none none "hello", .elapse 3000, .timerExpiry 0,
        .closeComplete 0, .send 9999 "localhost" none none "world"]).teardown = true ∧
    (run World.init [.send 9999 "localhost" none none "hello", .elapse 3000, .timerExpiry 0,
        .closeComplete 0, .send 9999 "localhost" none none "world"]).exitListeners = 0 ∧
    endsOf (run World.init [.send 9999 "localhost" none none "hello", .elapse 3000,
        .timerExpiry 0, .closeComplete 0, .send 9999 "localhost" none none "world",
        .processExit]).trace = [0] ∧
    run World.init [.send 9999 "localhost" none none "hello", .elapse 3000,
        .timerExpiry 0, .closeComplete 0, .send 9999 "localhost" none none "world",
        .processExit]
      = run World.init [.send 9999 "localhost" none none "hello", .elapse 3000,
        .timerExpiry 0, .closeComplete 0, .send 9999 "localhost" none none "world"] ∧
    (run World.init [.send 9999 "localhost" none none "hello"]).exitListeners = 1 ∧
    endsOf (run World.init [.send 9999 "localhost" none none "hello", .processExit]).trace
      = [0] := by
  decide

end SendTcp
